import Mathlib

/-!
Verification of the portfolio admin gallery, role gate and upload form.

Shallow embedding of the TypeScript sources:
  src/app/admin/login/page.tsx          (LoginPage, AdminPage, ProjectPreview, ProjectCard)
  src/app/admin/components/UploadForm.tsx (UploadForm, PortfolioPage with ProjectPreviewModal)

Conventions of the embedding:
  - JS string truthiness of an optional string field (`if (x)`) is modelled as
    `x = some s` with `s` non-empty; `undefined` and `null` collapse to `none`.
  - The `media` field (a possibly-absent JS array) is modelled as a `List`,
    with the absent array identified with the empty list, which is exactly
    how every use site treats it (`project.media && Array.isArray(project.media)
    && project.media.length > 0`).
  - Machine numbers (file sizes, indices, lengths) are `Nat`; the JS modulo
    of nonnegative operands agrees with `Nat.mod`, and a modulo by zero
    (which yields `NaN` in JS) is modelled as `none`.
  - Asynchronous external calls (role fetch, Cloudinary upload) are inputs
    of the embedded functions (`Except`-valued), and the observable effects
    (toasts, network calls, store writes, sign-out, navigation) are collected
    in an event trace.
-/

namespace Portfolio

/-- Project categories, the fixed enumeration from both source files. -/
inductive ProjectType
  | graphics
  | motion
  | frontend
deriving DecidableEq, Repr

/-- Media kind of a single gallery item. -/
inductive MediaType
  | image
  | video
deriving DecidableEq, Repr

/-- One media entry: page.tsx lines 247-250 / UploadForm.tsx lines 11-14. -/
structure MediaItem where
  type : MediaType
  url : String
deriving DecidableEq, Repr

/-- A project record as read from the store: page.tsx lines 252-264.
`mediaUrl` is the legacy single-URL field. -/
structure Project where
  id : String
  title : String
  description : String
  type : ProjectType
  media : List MediaItem
  mediaUrl : Option String
  liveLink : Option String
  tags : List String
  views : Nat
  likes : Nat
deriving DecidableEq, Repr

namespace ProjectPreview

/-- Admin preview modal normalization, page.tsx lines 281-294:
use the media array when non-empty, else synthesize one item from the
legacy `mediaUrl` (video iff the project type is motion), else empty. -/
def mediaItems (p : Project) : List MediaItem :=
  if p.media.length > 0 then
    p.media
  else
    match p.mediaUrl with
    | some u =>
        if u == "" then []
        else [⟨if p.type == ProjectType.motion then MediaType.video else MediaType.image, u⟩]
    | none => []

end ProjectPreview

namespace ProjectPreviewModal

/-- Public preview modal normalization, UploadForm.tsx lines 727-731
(PortfolioPage component); textually the same algorithm as the admin one. -/
def mediaItems (p : Project) : List MediaItem :=
  if p.media.length > 0 then
    p.media
  else
    match p.mediaUrl with
    | some u =>
        if u == "" then []
        else [⟨if p.type == ProjectType.motion then MediaType.video else MediaType.image, u⟩]
    | none => []

end ProjectPreviewModal

namespace ProjectCard

/-- Card thumbnail helper, page.tsx lines 515-527: the first media item of a
project in either format, `none` when the project has no media at all. -/
def firstMedia (p : Project) : Option MediaItem :=
  if p.media.length > 0 then
    p.media.head?
  else
    match p.mediaUrl with
    | some u =>
        if u == "" then none
        else some ⟨if p.type == ProjectType.motion then MediaType.video else MediaType.image, u⟩
    | none => none

end ProjectCard

/-- JS truthiness of an optional string field: present and non-empty. -/
def strTruthy : Option String → Bool
  | none => false
  | some s => !(s == "")

/-- Claim C1: for every project, the normalized media sequence is the media
array verbatim when non-empty; otherwise, when the legacy mediaUrl is set,
a one-element sequence whose item has url mediaUrl and type video iff the
project type is motion; otherwise the empty sequence. -/
theorem claim1_media_normalization (p : Project) :
    (p.media ≠ [] → ProjectPreview.mediaItems p = p.media) ∧
    (p.media = [] → ∀ u, p.mediaUrl = some u → u ≠ "" →
      ProjectPreview.mediaItems p =
        [⟨if p.type = ProjectType.motion then MediaType.video else MediaType.image, u⟩]) ∧
    (p.media = [] → strTruthy p.mediaUrl = false → ProjectPreview.mediaItems p = []) := by
  refine ⟨?_, ?_, ?_⟩
  · intro h
    have hlen : p.media.length > 0 := List.length_pos.mpr h
    simp [ProjectPreview.mediaItems, hlen]
  · intro hm u hu hne
    have : ¬ p.media.length > 0 := by simp [hm]
    simp only [ProjectPreview.mediaItems, this, if_false, hu]
    have hbeq : (u == "") = false := by
      simp [hne]
    simp [hbeq]
  · intro hm htru
    have : ¬ p.media.length > 0 := by simp [hm]
    simp only [ProjectPreview.mediaItems, this, if_false]
    match hurl : p.mediaUrl with
    | none => rfl
    | some u =>
        rw [hurl] at htru
        simp [strTruthy] at htru
        simp [htru]

/-- Sample legacy-format motion project used by the C1 witness. -/
def legacyMotionProject : Project :=
  { id := "p1", title := "Reel", description := "", type := ProjectType.motion,
    media := [], mediaUrl := some "http://m/v.mp4", liveLink := none,
    tags := [], views := 0, likes := 0 }

/-- Witness for claim C1 at a concrete legacy motion project. -/
theorem claim1_media_normalization_witness :
    ProjectPreview.mediaItems legacyMotionProject = [⟨MediaType.video, "http://m/v.mp4"⟩] := by
  have h := (claim1_media_normalization legacyMotionProject).2.1 rfl "http://m/v.mp4" rfl
    (by decide)
  simpa using h

/-- Claim C2: the two modal normalizations agree on every project, and the
card-thumbnail helper returns exactly the head of that normalized sequence
(none when it is empty). -/
theorem claim2_normalization_agreement (p : Project) :
    ProjectPreviewModal.mediaItems p = ProjectPreview.mediaItems p ∧
    ProjectCard.firstMedia p = (ProjectPreview.mediaItems p).head? := by
  constructor
  · rfl
  · by_cases hlen : p.media.length > 0
    · simp [ProjectCard.firstMedia, ProjectPreview.mediaItems, hlen]
    · simp only [ProjectCard.firstMedia, ProjectPreview.mediaItems, hlen, if_false]
      match p.mediaUrl with
      | none => rfl
      | some u =>
          by_cases hu : u == "" <;> simp [hu]

/-- Viewer state: the `currentMediaIndex` useState of either preview modal
(page.tsx line 278, UploadForm.tsx line 726). -/
structure ViewerState where
  currentMediaIndex : Nat
deriving DecidableEq, Repr

/-- Interactions the rendered viewer exposes: the two arrow buttons, a
thumbnail click, and a keydown event. -/
inductive ViewerAction
  | nextButton
  | prevButton
  | thumbClick (i : Nat)
  | keydown (key : String)
deriving DecidableEq, Repr

namespace ProjectPreview

/-- page.tsx lines 300-302: `(prev + 1) % mediaItems.length`, parameterized
by `len = mediaItems.length`. A modulo by zero yields NaN in JS, modelled
as `none`. -/
def goToNext (len i : Nat) : Option Nat :=
  if len == 0 then none else some ((i + 1) % len)

/-- page.tsx lines 304-306: `(prev - 1 + mediaItems.length) % mediaItems.length`.
For a nonnegative index and positive length the JS value equals
`(i + len - 1) % len`. -/
def goToPrevious (len i : Nat) : Option Nat :=
  if len == 0 then none else some ((i + len - 1) % len)

/-- page.tsx line 297: `mediaItems.length > 1`, the guard used by the key
handler and by the rendering of navigation arrows and thumbnails. -/
def hasMultipleMedia (len : Nat) : Bool :=
  decide (1 < len)

/-- page.tsx lines 310-318: the keydown handler. Arrow keys act only when
`hasMultipleMedia`; Escape closes the viewer (second component true). -/
def handleKeyPress (len : Nat) (key : String) (s : ViewerState) :
    Option (ViewerState × Bool) :=
  if key == "ArrowRight" && hasMultipleMedia len then
    (goToNext len s.currentMediaIndex).map (fun j => (⟨j⟩, false))
  else if key == "ArrowLeft" && hasMultipleMedia len then
    (goToPrevious len s.currentMediaIndex).map (fun j => (⟨j⟩, false))
  else if key == "Escape" then
    some (s, true)
  else
    some (s, false)

/-- Effect on the index of one rendered interaction. The arrow buttons and
the thumbnail strip exist in the DOM only when `hasMultipleMedia`
(page.tsx lines 383, 405), so with at most one item every action leaves
the state unchanged. -/
def viewerStep (len : Nat) (a : ViewerAction) (s : ViewerState) : ViewerState :=
  match a with
  | ViewerAction.nextButton =>
      if hasMultipleMedia len then
        match goToNext len s.currentMediaIndex with
        | some j => ⟨j⟩
        | none => s
      else s
  | ViewerAction.prevButton =>
      if hasMultipleMedia len then
        match goToPrevious len s.currentMediaIndex with
        | some j => ⟨j⟩
        | none => s
      else s
  | ViewerAction.thumbClick i =>
      if hasMultipleMedia len && decide (i < len) then ⟨i⟩ else s
  | ViewerAction.keydown k =>
      match handleKeyPress len k s with
      | some (s1, _) => s1
      | none => s

/-- Mounting the viewer on a project: `useState<number>(0)` (page.tsx
line 278); the index starts at 0 for every newly presented project. -/
def openViewer (_p : Project) : ViewerState := ⟨0⟩

end ProjectPreview

namespace ProjectPreviewModal

/-- UploadForm.tsx line 734 (public modal), same arithmetic as the admin one. -/
def goToNext (len i : Nat) : Option Nat :=
  if len == 0 then none else some ((i + 1) % len)

/-- UploadForm.tsx line 735 (public modal). -/
def goToPrevious (len i : Nat) : Option Nat :=
  if len == 0 then none else some ((i + len - 1) % len)

/-- UploadForm.tsx line 733: `mediaItems.length > 1`. -/
def hasMultipleMedia (len : Nat) : Bool :=
  decide (1 < len)

/-- UploadForm.tsx lines 737-741: the public modal keydown handler. -/
def handleKeyPress (len : Nat) (key : String) (s : ViewerState) :
    Option (ViewerState × Bool) :=
  if key == "ArrowRight" && hasMultipleMedia len then
    (goToNext len s.currentMediaIndex).map (fun j => (⟨j⟩, false))
  else if key == "ArrowLeft" && hasMultipleMedia len then
    (goToPrevious len s.currentMediaIndex).map (fun j => (⟨j⟩, false))
  else if key == "Escape" then
    some (s, true)
  else
    some (s, false)

/-- Effect of one rendered interaction in the public modal; nav arrows and
thumbnails are rendered only under `hasMultipleMedia` (UploadForm.tsx
lines 792, 812). -/
def viewerStep (len : Nat) (a : ViewerAction) (s : ViewerState) : ViewerState :=
  match a with
  | ViewerAction.nextButton =>
      if hasMultipleMedia len then
        match goToNext len s.currentMediaIndex with
        | some j => ⟨j⟩
        | none => s
      else s
  | ViewerAction.prevButton =>
      if hasMultipleMedia len then
        match goToPrevious len s.currentMediaIndex with
        | some j => ⟨j⟩
        | none => s
      else s
  | ViewerAction.thumbClick i =>
      if hasMultipleMedia len && decide (i < len) then ⟨i⟩ else s
  | ViewerAction.keydown k =>
      match handleKeyPress len k s with
      | some (s1, _) => s1
      | none => s

/-- Mounting the public viewer: `useState(0)` (UploadForm.tsx line 726). -/
def openViewer (_p : Project) : ViewerState := ⟨0⟩

end ProjectPreviewModal

lemma goToNext_iterate (L : Nat) (hL : 1 ≤ L) (i k : Nat) (hi : i < L) :
    (fun o => o.bind (ProjectPreview.goToNext L))^[k] (some i) = some ((i + k) % L) := by
  induction k with
  | zero => simp [Nat.mod_eq_of_lt hi]
  | succ k ih =>
      rw [Function.iterate_succ_apply', ih]
      have hz : L ≠ 0 := by omega
      simp only [Option.some_bind, ProjectPreview.goToNext, beq_iff_eq, hz, if_false]
      rw [Nat.mod_add_mod]
      rfl

lemma goToPrevious_iterate (L : Nat) (hL : 1 ≤ L) (i k : Nat) (hi : i < L) :
    (fun o => o.bind (ProjectPreview.goToPrevious L))^[k] (some i) =
      some ((i + k * (L - 1)) % L) := by
  obtain ⟨m, rfl⟩ : ∃ m, L = m + 1 := ⟨L - 1, by omega⟩
  induction k with
  | zero => simp [Nat.mod_eq_of_lt hi]
  | succ k ih =>
      rw [Function.iterate_succ_apply', ih]
      have hz : m + 1 ≠ 0 := by omega
      simp only [Option.some_bind, ProjectPreview.goToPrevious, beq_iff_eq, hz, if_false]
      have h1 : ∀ a : Nat, a + (m + 1) - 1 = a + m := by omega
      rw [h1, Nat.mod_add_mod]
      congr 2
      simp only [Nat.add_sub_cancel]
      ring

lemma modalGoToNext_eq : ProjectPreviewModal.goToNext = ProjectPreview.goToNext := rfl

lemma modalGoToPrevious_eq :
    ProjectPreviewModal.goToPrevious = ProjectPreview.goToPrevious := rfl

/-- Claim C3: for every normalized sequence length L at least 1 and every
starting index below L, applying next L times returns the index to its
start, and the same for previous, in both the admin and the public modal. -/
theorem claim3_cycle_closure (L i : Nat) (hL : 1 ≤ L) (hi : i < L) :
    (fun o => o.bind (ProjectPreview.goToNext L))^[L] (some i) = some i ∧
    (fun o => o.bind (ProjectPreview.goToPrevious L))^[L] (some i) = some i ∧
    (fun o => o.bind (ProjectPreviewModal.goToNext L))^[L] (some i) = some i ∧
    (fun o => o.bind (ProjectPreviewModal.goToPrevious L))^[L] (some i) = some i := by
  have hnext : (fun o => o.bind (ProjectPreview.goToNext L))^[L] (some i) = some i := by
    rw [goToNext_iterate L hL i L hi, Nat.add_mod_right, Nat.mod_eq_of_lt hi]
  have hprev : (fun o => o.bind (ProjectPreview.goToPrevious L))^[L] (some i) = some i := by
    rw [goToPrevious_iterate L hL i L hi, Nat.add_mul_mod_self_left, Nat.mod_eq_of_lt hi]
  exact ⟨hnext, hprev, by rw [modalGoToNext_eq]; exact hnext,
    by rw [modalGoToPrevious_eq]; exact hprev⟩

/-- Witness for claim C3 at L = 3, i = 1. -/
theorem claim3_cycle_closure_witness :
    (fun o => o.bind (ProjectPreview.goToNext 3))^[3] (some 1) = some 1 ∧
    (fun o => o.bind (ProjectPreview.goToPrevious 3))^[3] (some 1) = some 1 ∧
    (fun o => o.bind (ProjectPreviewModal.goToNext 3))^[3] (some 1) = some 1 ∧
    (fun o => o.bind (ProjectPreviewModal.goToPrevious 3))^[3] (some 1) = some 1 :=
  claim3_cycle_closure 3 1 (by decide) (by decide)

/-- Claim C4: with at most one media item the arrow keys are accepted but
change nothing and produce a defined result (no modulo-by-zero is reached:
the guard short-circuits), the arrow buttons are no-ops because they are
not rendered, and the navigation controls are disabled, in both modals. -/
theorem claim4_short_gallery_noop (L : Nat) (hL : L ≤ 1) (s : ViewerState) :
    ProjectPreview.handleKeyPress L "ArrowRight" s = some (s, false) ∧
    ProjectPreview.handleKeyPress L "ArrowLeft" s = some (s, false) ∧
    ProjectPreview.viewerStep L ViewerAction.nextButton s = s ∧
    ProjectPreview.viewerStep L ViewerAction.prevButton s = s ∧
    ProjectPreview.hasMultipleMedia L = false ∧
    ProjectPreviewModal.handleKeyPress L "ArrowRight" s = some (s, false) ∧
    ProjectPreviewModal.handleKeyPress L "ArrowLeft" s = some (s, false) ∧
    ProjectPreviewModal.viewerStep L ViewerAction.nextButton s = s ∧
    ProjectPreviewModal.viewerStep L ViewerAction.prevButton s = s ∧
    ProjectPreviewModal.hasMultipleMedia L = false := by
  have hm : ProjectPreview.hasMultipleMedia L = false := by
    simp [ProjectPreview.hasMultipleMedia]
    omega
  have hm2 : ProjectPreviewModal.hasMultipleMedia L = false := hm
  refine ⟨?_, ?_, ?_, ?_, hm, ?_, ?_, ?_, ?_, hm2⟩ <;>
    simp [ProjectPreview.handleKeyPress, ProjectPreview.viewerStep,
      ProjectPreviewModal.handleKeyPress, ProjectPreviewModal.viewerStep, hm, hm2]

/-- Witness for claim C4 at the empty gallery. -/
theorem claim4_short_gallery_noop_witness :
    ProjectPreview.handleKeyPress 0 "ArrowRight" ⟨0⟩ = some (⟨0⟩, false) ∧
    ProjectPreview.hasMultipleMedia 0 = false :=
  ⟨(claim4_short_gallery_noop 0 (by decide) ⟨0⟩).1,
   (claim4_short_gallery_noop 0 (by decide) ⟨0⟩).2.2.2.2.1⟩

/-- A stored project with no media in either format; such records are
representable (the media array may be empty and the legacy field absent). -/
def emptyMediaProject : Project :=
  { id := "p0", title := "Empty", description := "", type := ProjectType.graphics,
    media := [], mediaUrl := none, liveLink := none,
    tags := [], views := 0, likes := 0 }

/-- Counterexample to claim C9 as stated: on a project whose normalized
media sequence is empty, the viewer opens with currentMediaIndex 0, which
is not in the half-open interval [0, length) because that interval is
empty. -/
theorem claim9_index_invariant_counterexample :
    (ProjectPreview.openViewer emptyMediaProject).currentMediaIndex = 0 ∧
    (ProjectPreview.mediaItems emptyMediaProject).length = 0 ∧
    ¬ (ProjectPreview.openViewer emptyMediaProject).currentMediaIndex <
        (ProjectPreview.mediaItems emptyMediaProject).length := by
  refine ⟨rfl, rfl, ?_⟩
  decide

lemma viewerStep_bound (len : Nat) (a : ViewerAction) (s : ViewerState)
    (h : s.currentMediaIndex < len ∨ s.currentMediaIndex = 0) :
    (ProjectPreview.viewerStep len a s).currentMediaIndex < len ∨
      (ProjectPreview.viewerStep len a s).currentMediaIndex = 0 := by
  have hmod : ∀ j : Nat, 1 < len → (j % len) < len := by
    intro j hlen
    exact Nat.mod_lt _ (by omega)
  match a with
  | ViewerAction.nextButton =>
      by_cases hm : 1 < len
      · simp [ProjectPreview.viewerStep, ProjectPreview.hasMultipleMedia,
          ProjectPreview.goToNext, hm, Nat.not_eq_zero_of_lt hm]
        exact Or.inl (hmod _ hm)
      · simp [ProjectPreview.viewerStep, ProjectPreview.hasMultipleMedia, hm]
        exact h
  | ViewerAction.prevButton =>
      by_cases hm : 1 < len
      · simp [ProjectPreview.viewerStep, ProjectPreview.hasMultipleMedia,
          ProjectPreview.goToPrevious, hm, Nat.not_eq_zero_of_lt hm]
        exact Or.inl (hmod _ hm)
      · simp [ProjectPreview.viewerStep, ProjectPreview.hasMultipleMedia, hm]
        exact h
  | ViewerAction.thumbClick i =>
      by_cases hc : 1 < len ∧ i < len
      · simp [ProjectPreview.viewerStep, ProjectPreview.hasMultipleMedia, hc.1, hc.2]
      · rcases Classical.em (1 < len) with h1 | h1
        · have hi : ¬ i < len := fun hi => hc ⟨h1, hi⟩
          simp [ProjectPreview.viewerStep, ProjectPreview.hasMultipleMedia, h1, hi]
          exact h
        · simp [ProjectPreview.viewerStep, ProjectPreview.hasMultipleMedia, h1]
          exact h
  | ViewerAction.keydown k =>
      by_cases hm : 1 < len
      · by_cases hr : k == "ArrowRight"
        · simp [ProjectPreview.viewerStep, ProjectPreview.handleKeyPress,
            ProjectPreview.hasMultipleMedia, ProjectPreview.goToNext, hm, hr,
            Nat.not_eq_zero_of_lt hm]
          exact Or.inl (hmod _ hm)
        · by_cases hl : k == "ArrowLeft"
          · simp [ProjectPreview.viewerStep, ProjectPreview.handleKeyPress,
              ProjectPreview.hasMultipleMedia, ProjectPreview.goToPrevious, hm, hr, hl,
              Nat.not_eq_zero_of_lt hm]
            exact Or.inl (hmod _ hm)
          · by_cases he : k == "Escape" <;>
              simp [ProjectPreview.viewerStep, ProjectPreview.handleKeyPress,
                ProjectPreview.hasMultipleMedia, hm, hr, hl, he] <;>
              exact h
      · have hmf : ProjectPreview.hasMultipleMedia len = false := by
          simp [ProjectPreview.hasMultipleMedia]
          omega
        by_cases he : k == "Escape" <;>
          simp [ProjectPreview.viewerStep, ProjectPreview.handleKeyPress, hmf, he] <;>
          exact h

lemma viewerFold_bound (len : Nat) (acts : List ViewerAction) :
    ∀ s : ViewerState, s.currentMediaIndex < len ∨ s.currentMediaIndex = 0 →
      (acts.foldl (fun st a => ProjectPreview.viewerStep len a st) s).currentMediaIndex < len ∨
        (acts.foldl (fun st a => ProjectPreview.viewerStep len a st) s).currentMediaIndex = 0 := by
  induction acts with
  | nil => intro s h; simpa using h
  | cons a rest ih =>
      intro s h
      simpa [List.foldl_cons] using ih (ProjectPreview.viewerStep len a s)
        (viewerStep_bound len a s h)

/-- Claim C9 amended: the viewer index starts at 0 for every newly presented
project (the index is not preserved across project switches), and after any
sequence of interactions it lies in [0, length) whenever the normalized
sequence is non-empty; when that sequence is empty the index stays 0. -/
theorem claim9_index_invariant_amended (p : Project) (acts : List ViewerAction) :
    ProjectPreview.openViewer p = ⟨0⟩ ∧
    ((ProjectPreview.mediaItems p).length = 0 →
      (acts.foldl (fun st a => ProjectPreview.viewerStep (ProjectPreview.mediaItems p).length a st)
        (ProjectPreview.openViewer p)).currentMediaIndex = 0) ∧
    (1 ≤ (ProjectPreview.mediaItems p).length →
      (acts.foldl (fun st a => ProjectPreview.viewerStep (ProjectPreview.mediaItems p).length a st)
        (ProjectPreview.openViewer p)).currentMediaIndex <
        (ProjectPreview.mediaItems p).length) := by
  have hbase : (ProjectPreview.openViewer p).currentMediaIndex <
      (ProjectPreview.mediaItems p).length ∨
      (ProjectPreview.openViewer p).currentMediaIndex = 0 := Or.inr rfl
  have hfold := viewerFold_bound (ProjectPreview.mediaItems p).length acts
    (ProjectPreview.openViewer p) hbase
  refine ⟨rfl, ?_, ?_⟩
  · intro h0
    rcases hfold with h | h
    · omega
    · exact h
  · intro h1
    rcases hfold with h | h
    · exact h
    · omega

/-- A two-image project used by the C9 witness. -/
def twoImageProject : Project :=
  { id := "p2", title := "Pair", description := "", type := ProjectType.graphics,
    media := [⟨MediaType.image, "http://m/a.png"⟩, ⟨MediaType.image, "http://m/b.png"⟩],
    mediaUrl := none, liveLink := none, tags := [], views := 0, likes := 0 }

/-- Witness for the amended claim C9 at a concrete project and interaction
sequence. -/
theorem claim9_index_invariant_amended_witness :
    ([ViewerAction.nextButton, ViewerAction.keydown "ArrowLeft",
        ViewerAction.thumbClick 1].foldl
      (fun st a =>
        ProjectPreview.viewerStep (ProjectPreview.mediaItems twoImageProject).length a st)
      (ProjectPreview.openViewer twoImageProject)).currentMediaIndex <
      (ProjectPreview.mediaItems twoImageProject).length :=
  (claim9_index_invariant_amended twoImageProject
    [ViewerAction.nextButton, ViewerAction.keydown "ArrowLeft",
      ViewerAction.thumbClick 1]).2.2 (by decide)

/-- Toast severity levels of the admin dashboard toast system
(page.tsx line 191). -/
inductive ToastKind
  | success
  | error
  | warning
deriving DecidableEq, Repr

/-- Observable effects of the admin page auth effect: toast notifications,
the firebase sign-out call, an immediate router push, and the 2-second
delayed push of the access-denied branch. -/
inductive GateEvent
  | toast (kind : ToastKind) (msg : String)
  | signOutCall
  | navigate (path : String)
  | navigateDelayed (path : String)
deriving DecidableEq, Repr

/-- View state touched by the AdminPage auth effect (page.tsx lines 651-658).
The user field collapses the undefined/null distinction to `none`. -/
structure AdminGateState where
  user : Option String
  isAdmin : Bool
  checkingAuth : Bool
  hasShownWelcome : Bool
deriving DecidableEq, Repr

/-- Initial AdminPage state (page.tsx lines 651-658). -/
def initialGateState : AdminGateState :=
  { user := none, isAdmin := false, checkingAuth := true, hasShownWelcome := false }

/-- The grant notification of the admin branch (page.tsx line 701). -/
def grantToast : GateEvent :=
  GateEvent.toast ToastKind.success "✓ Admin access granted"

/-- setHasShownWelcome(true), page.tsx line 702. -/
def markWelcome (s : AdminGateState) : AdminGateState :=
  { s with hasShownWelcome := true }

/-- One invocation of the onAuthStateChanged callback (page.tsx lines
666-722). Inputs: the delivered identity (uid or none) and the outcome of
the role-record fetch for that uid: `Except.error` for a thrown fetch,
`Except.ok none` for an absent record, `Except.ok (some role)` for a record
whose role field is `role`. Returns the updated state and the emitted
events in program order. -/
def authCallback (currentUser : Option String)
    (roleFetch : Except Unit (Option (Option String)))
    (s : AdminGateState) : AdminGateState × List GateEvent :=
  match currentUser with
  | none =>
      ({ s with user := none, isAdmin := false, checkingAuth := false },
       [GateEvent.navigate "/admin/login"])
  | some uid =>
      match roleFetch with
      | Except.error _ =>
          ({ s with isAdmin := false, user := none, checkingAuth := false },
           [GateEvent.toast ToastKind.error "Failed to verify admin status",
            GateEvent.navigate "/admin/login"])
      | Except.ok none =>
          ({ s with isAdmin := false, user := none, checkingAuth := false },
           [GateEvent.toast ToastKind.error "User record not found. Please contact support.",
            GateEvent.signOutCall,
            GateEvent.navigate "/admin/login"])
      | Except.ok (some role) =>
          if role == some "admin" then
            if s.hasShownWelcome then
              ({ s with isAdmin := true, user := some uid, checkingAuth := false }, [])
            else
              (markWelcome { s with isAdmin := true, user := some uid, checkingAuth := false },
               [grantToast])
          else
            ({ s with isAdmin := false, user := none, checkingAuth := false },
             [GateEvent.toast ToastKind.error "Access denied: Admin privileges required",
              GateEvent.signOutCall,
              GateEvent.navigateDelayed "/admin/login"])

/-- Sequential delivery of several auth snapshots to one mounted session,
threading the view state and concatenating the emitted events. -/
def runGate (inputs : List (Option String × Except Unit (Option (Option String))))
    (s : AdminGateState) : AdminGateState × List GateEvent :=
  match inputs with
  | [] => (s, [])
  | inp :: rest =>
      ((runGate rest (authCallback inp.1 inp.2 s).1).1,
       (authCallback inp.1 inp.2 s).2 ++ (runGate rest (authCallback inp.1 inp.2 s).1).2)

/-- A snapshot delivering an authenticated identity whose role record has
role admin. -/
def adminSnapshot (uid : String) :
    Option String × Except Unit (Option (Option String)) :=
  (some uid, Except.ok (some (some "admin")))

lemma authCallback_admin_seen (uid : String) (s : AdminGateState)
    (h : s.hasShownWelcome = true) :
    authCallback (some uid) (Except.ok (some (some "admin"))) s =
      ({ s with isAdmin := true, user := some uid, checkingAuth := false }, []) := by
  simp [authCallback, h]

lemma runGate_admin_silent (uid : String) (n : Nat) :
    ∀ s : AdminGateState, s.hasShownWelcome = true →
      (runGate (List.replicate n (adminSnapshot uid)) s).2 = [] := by
  induction n with
  | zero => intro s _; rfl
  | succ n ih =>
      intro s h
      rw [List.replicate_succ]
      simp only [runGate, adminSnapshot, authCallback_admin_seen uid s h]
      exact ih _ h

/-- Claim C6: within one mounted session, delivering the admin role record
any positive number of times (so in particular twice, via snapshot replay)
emits the access-granted notification exactly once. -/
theorem claim6_single_grant_toast (uid : String) (n : Nat) :
    ((runGate (List.replicate (n + 1) (adminSnapshot uid)) initialGateState).2.countP
      (fun e => e == grantToast)) = 1 := by
  rw [List.replicate_succ]
  simp only [runGate, adminSnapshot]
  rw [List.countP_append]
  have hstate : (authCallback (some uid) (Except.ok (some (some "admin")))
      initialGateState).1.hasShownWelcome = true := rfl
  have hsil := runGate_admin_silent uid n
    (authCallback (some uid) (Except.ok (some (some "admin"))) initialGateState).1 hstate
  simp only [adminSnapshot] at hsil
  rw [hsil]
  have hev : (authCallback (some uid) (Except.ok (some (some "admin")))
      initialGateState).2 = [grantToast] := rfl
  rw [hev]
  decide

/-- Claim C7: an authenticated identity whose role record is absent yields,
regardless of the current view state, a user-record-not-found message,
exactly one sign-out call, exactly one redirect to the login screen, and
zero access-granted notifications. -/
theorem claim7_absent_record (uid : String) (s : AdminGateState) :
    (authCallback (some uid) (Except.ok none) s).2.countP
      (fun e => e == GateEvent.signOutCall) = 1 ∧
    (authCallback (some uid) (Except.ok none) s).2.countP
      (fun e => e == GateEvent.navigate "/admin/login") = 1 ∧
    (authCallback (some uid) (Except.ok none) s).2.countP
      (fun e => e == grantToast) = 0 ∧
    GateEvent.toast ToastKind.error "User record not found. Please contact support." ∈
      (authCallback (some uid) (Except.ok none) s).2 := by
  simp only [authCallback]
  refine ⟨?_, ?_, ?_, ?_⟩ <;> decide

/-- The authenticated user handed to UploadForm (uid and possibly-null
email). -/
structure UserRec where
  uid : String
  email : Option String
deriving DecidableEq, Repr

/-- The users/{uid} role document; `role` is its possibly-missing role
field. -/
structure RoleDoc where
  role : Option String
deriving DecidableEq, Repr

/-- A selected file: name and size in bytes. -/
structure FileRec where
  name : String
  size : Nat
deriving DecidableEq, Repr

/-- The react-hook-form field values at submit time (UploadForm.tsx lines
34-41); `tags` is the raw comma-separated text, empty when unset. -/
structure FormInput where
  title : String
  description : String
  type : ProjectType
  liveLink : Option String
  tags : String
deriving DecidableEq, Repr

/-- Observable effects of one UploadForm submission, in program order:
the role-record fetch, toast notifications, the Cloudinary network call for
one file, and the store create/update. -/
inductive Event
  | roleFetch
  | toast (kind : ToastKind) (msg : String)
  | uploadCall (fileName : String)
  | dbCreate
  | dbUpdate
deriving DecidableEq, Repr

/-- The record assembled by onSubmit (UploadForm.tsx lines 215-241).
Fields only present on create carry `none` on edit. -/
structure ProjectData where
  title : String
  description : String
  type : ProjectType
  media : List MediaItem
  liveLink : Option String
  tags : List String
  userId : Option String
  userEmail : Option String
  status : Option String
  featured : Option Bool
  views : Option Nat
  likes : Option Nat
deriving DecidableEq, Repr

/-- UploadForm.tsx line 189: 50 MiB per file for motion projects, 5 MiB
otherwise. -/
def sizeCap (t : ProjectType) : Nat :=
  if t == ProjectType.motion then 50 * 1024 * 1024 else 5 * 1024 * 1024

/-- UploadForm.tsx line 195: motion uploads go to the video endpoint, all
others to the image endpoint. -/
def resourceType (t : ProjectType) : MediaType :=
  if t == ProjectType.motion then MediaType.video else MediaType.image

/-- UploadForm.tsx lines 211-213: split the raw tag text on commas, trim
each piece, drop empties; empty input yields no tags. -/
def parseTags (s : String) : List String :=
  if s == "" then []
  else ((s.splitOn ",").map String.trim).filter (fun t => !(t == ""))

/-- Email fallback of the create branch: an absent or empty user email is
replaced by the literal unknown (UploadForm.tsx line 235). -/
def emailOrUnknown : Option String → String
  | none => "unknown"
  | some e => if e == "" then "unknown" else e

/-- UploadForm.tsx lines 215-241: assemble the record written to the store.
`isEdit` is whether `initialData` was supplied. The liveLink is the trimmed
form value only for frontend projects and undefined otherwise; the create
branch adds owner fields, status, featured and zeroed counters. -/
def assembleProjectData (u : UserRec) (form : FormInput) (media : List MediaItem)
    (isEdit : Bool) : ProjectData :=
  { title := form.title.trim
    description := form.description.trim
    type := form.type
    media := media
    liveLink := if form.type == ProjectType.frontend then form.liveLink.map String.trim else none
    tags := parseTags form.tags
    userId := if isEdit then none else some u.uid
    userEmail := if isEdit then none else some (emailOrUnknown u.email)
    status := if isEdit then none else some "published"
    featured := if isEdit then none else some false
    views := if isEdit then none else some 0
    likes := if isEdit then none else some 0 }

/-- UploadForm.tsx lines 186-204: the sequential upload loop. Each file is
checked against the cap before its network call; an oversized file throws
an error naming it, an upload failure propagates the provider message. The
returned events are the Cloudinary calls actually made. -/
def uploadLoop (upl : FileRec → Except String String) (cap : Nat) (rt : MediaType) :
    List FileRec → List Event × Except String (List MediaItem)
  | [] => ([], Except.ok [])
  | f :: rest =>
      if cap < f.size then
        ([], Except.error ("File \"" ++ f.name ++ "\" exceeds the size limit"))
      else
        match upl f with
        | Except.error e => ([Event.uploadCall f.name], Except.error e)
        | Except.ok url =>
            match uploadLoop upl cap rt rest with
            | (evs, Except.error e) => (Event.uploadCall f.name :: evs, Except.error e)
            | (evs, Except.ok items) =>
                (Event.uploadCall f.name :: evs, Except.ok (⟨rt, url⟩ :: items))

/-- All submission inputs: the passed user, the outcome the role fetch
would produce, the selected files, the Cloudinary outcome per file, the
form values and the optional project being edited. -/
structure SubmitArgs where
  user : Option UserRec
  fetchRole : Except Unit (Option RoleDoc)
  selectedFiles : List FileRec
  uploadFn : FileRec → Except String String
  form : FormInput
  initialData : Option Project

/-- The toast/write tail of a successful submission (UploadForm.tsx lines
209 and 243-252): progress toast, one store write, success toast. -/
def saveSteps (isEdit : Bool) : List Event :=
  if isEdit then
    [Event.toast ToastKind.warning "Updating project...",
     Event.dbUpdate,
     Event.toast ToastKind.success "✓ Project updated successfully!"]
  else
    [Event.toast ToastKind.warning "Saving to database...",
     Event.dbCreate,
     Event.toast ToastKind.success "✓ Project uploaded successfully!"]

/-- The body of onSubmit after the admin re-verification succeeded
(UploadForm.tsx lines 176-261): upload selected files (aborting on the
first failure), or for an edit without new files keep the existing media;
a create without files throws. Store writes are modelled as succeeding. -/
def submitBody (u : UserRec) (a : SubmitArgs) : List Event × Option ProjectData :=
  if a.selectedFiles.length > 0 then
    match uploadLoop a.uploadFn (sizeCap a.form.type) (resourceType a.form.type)
        a.selectedFiles with
    | (evs, Except.error msg) =>
        (Event.toast ToastKind.warning "Uploading media..." ::
          (evs ++ [Event.toast ToastKind.error msg]), none)
    | (evs, Except.ok uploaded) =>
        (Event.toast ToastKind.warning "Uploading media..." ::
          (evs ++ saveSteps a.initialData.isSome),
         some (assembleProjectData u a.form uploaded a.initialData.isSome))
  else
    match a.initialData with
    | none => ([Event.toast ToastKind.error "Please select at least one file"], none)
    | some p => (saveSteps true, some (assembleProjectData u a.form p.media true))

/-- UploadForm.tsx lines 149-262: the full submission. The user guard and
the admin re-verification run before anything else; each failure emits an
error toast and returns without any upload or write. -/
def onSubmit (a : SubmitArgs) : List Event × Option ProjectData :=
  match a.user with
  | none =>
      ([Event.toast ToastKind.error "Authentication required. Please sign in again."], none)
  | some u =>
      match a.fetchRole with
      | Except.error _ =>
          ([Event.roleFetch, Event.toast ToastKind.error "Failed to verify admin status."],
           none)
      | Except.ok none =>
          ([Event.roleFetch,
            Event.toast ToastKind.error "User record not found. Please contact support."],
           none)
      | Except.ok (some d) =>
          if d.role == some "admin" then
            (Event.roleFetch :: (submitBody u a).1, (submitBody u a).2)
          else
            ([Event.roleFetch,
              Event.toast ToastKind.error "Admin privileges required for upload."],
             none)

/-- The submission passes the pre-submit authorization boundary: a user is
present, the role fetch succeeded, the record exists and its role is
admin. -/
def roleVerified (a : SubmitArgs) : Bool :=
  a.user.isSome &&
    match a.fetchRole with
    | Except.ok (some d) => d.role == some "admin"
    | _ => false

/-- Events that touch the network or the store: a file upload call or a
record create/update. -/
def isMutationEvent : Event → Bool
  | Event.uploadCall _ => true
  | Event.dbCreate => true
  | Event.dbUpdate => true
  | _ => false

/-- An error toast. -/
def isErrorToast : Event → Bool
  | Event.toast ToastKind.error _ => true
  | _ => false

/-- The file name of an upload network call, none for other events. -/
def uploadCallName : Event → Option String
  | Event.uploadCall n => some n
  | _ => none

/-- A store write (create or update). -/
def isWriteEvent : Event → Bool
  | Event.dbCreate => true
  | Event.dbUpdate => true
  | _ => false

/-- Claim C5: when the pre-submit admin re-verification fails (missing
user, failed fetch, absent record, or non-admin role), the submission
performs no upload and no store write, assembles no record, and surfaces an
error notification; when it succeeds, the role fetch is the first
observable action of the submission. -/
theorem claim5_presubmit_reverification (a : SubmitArgs) :
    (roleVerified a = false →
      (onSubmit a).1.countP isMutationEvent = 0 ∧
      (onSubmit a).2 = none ∧
      (onSubmit a).1.countP isErrorToast ≠ 0) ∧
    (roleVerified a = true → (onSubmit a).1.head? = some Event.roleFetch) := by
  constructor
  · intro h
    match hu : a.user with
    | none =>
        simp [onSubmit, hu]
        decide
    | some u =>
        match hf : a.fetchRole with
        | Except.error e =>
            simp [onSubmit, hu, hf]
            decide
        | Except.ok none =>
            simp [onSubmit, hu, hf]
            decide
        | Except.ok (some d) =>
            have hr : (d.role == some "admin") = false := by
              by_contra hcon
              have : (d.role == some "admin") = true := by
                revert hcon
                cases d.role == some "admin" <;> simp
              rw [roleVerified, hu, hf] at h
              simp [this] at h
            simp [onSubmit, hu, hf, hr]
            decide
  · intro h
    match hu : a.user with
    | none => rw [roleVerified, hu] at h; simp at h
    | some u =>
        match hf : a.fetchRole with
        | Except.error e => rw [roleVerified, hu, hf] at h; simp at h
        | Except.ok none => rw [roleVerified, hu, hf] at h; simp at h
        | Except.ok (some d) =>
            have hr : (d.role == some "admin") = true := by
              rw [roleVerified, hu, hf] at h
              simpa using h
            simp [onSubmit, hu, hf, hr]

/-- Submission inputs whose role record is absent, used by the C5
witness. -/
def absentRoleArgs : SubmitArgs :=
  { user := some ⟨"uid1", some "a@b.c"⟩
    fetchRole := Except.ok none
    selectedFiles := [⟨"a.png", 10⟩]
    uploadFn := fun _ => Except.ok "http://cdn/a"
    form := ⟨"Title", "", ProjectType.graphics, none, ""⟩
    initialData := none }

/-- Witness for claim C5: with an absent role record nothing is uploaded or
written and an error toast is shown. -/
theorem claim5_presubmit_reverification_witness :
    (onSubmit absentRoleArgs).1.countP isMutationEvent = 0 ∧
    (onSubmit absentRoleArgs).2 = none ∧
    (onSubmit absentRoleArgs).1.countP isErrorToast ≠ 0 :=
  (claim5_presubmit_reverification absentRoleArgs).1 rfl

lemma uploadLoop_oversize (upl : FileRec → Except String String) (cap : Nat)
    (rt : MediaType) (pre : List FileRec) (ovf : FileRec) (rest : List FileRec)
    (hpre : ∀ f ∈ pre, f.size ≤ cap ∧ ∃ url, upl f = Except.ok url)
    (hovf : cap < ovf.size) :
    uploadLoop upl cap rt (pre ++ ovf :: rest) =
      (pre.map (fun f => Event.uploadCall f.name),
       Except.error ("File \"" ++ ovf.name ++ "\" exceeds the size limit")) := by
  induction pre with
  | nil =>
      simp [uploadLoop, hovf]
  | cons f fs ih =>
      obtain ⟨hsz, url, hurl⟩ := hpre f (List.mem_cons_self f fs)
      have hnot : ¬ cap < f.size := Nat.not_lt.mpr hsz
      have ihr := ih (fun g hg => hpre g (List.mem_cons_of_mem f hg))
      simp only [List.cons_append, uploadLoop, hnot, if_false, hurl]
      rw [show fs.append (ovf :: rest) = fs ++ ovf :: rest from rfl, ihr]
      rfl

/-- Claim C8: once the admin check passed, a submission whose file list is
`pre ++ ovf :: rest`, where every file of `pre` is within the per-file cap
for the selected type and uploads successfully and `ovf` exceeds its cap,
makes exactly the Cloudinary calls for `pre` (so the oversized file is
rejected before any network call for it), writes nothing to the store,
assembles no record, and ends with an error toast naming the offending
file; the earlier uploads stay in the trace with nothing rolled back. -/
theorem claim8_per_file_size_guard (u : UserRec) (d : RoleDoc) (form : FormInput)
    (init : Option Project) (upl : FileRec → Except String String)
    (pre : List FileRec) (ovf : FileRec) (rest : List FileRec)
    (hd : d.role = some "admin")
    (hpre : ∀ f ∈ pre, f.size ≤ sizeCap form.type ∧ ∃ url, upl f = Except.ok url)
    (hovf : sizeCap form.type < ovf.size) :
    (onSubmit ⟨some u, Except.ok (some d), pre ++ ovf :: rest, upl, form, init⟩).1.filterMap
        uploadCallName = pre.map FileRec.name ∧
    (onSubmit ⟨some u, Except.ok (some d), pre ++ ovf :: rest, upl, form, init⟩).1.countP
        isWriteEvent = 0 ∧
    (onSubmit ⟨some u, Except.ok (some d), pre ++ ovf :: rest, upl, form, init⟩).1.getLast? =
      some (Event.toast ToastKind.error
        ("File \"" ++ ovf.name ++ "\" exceeds the size limit")) ∧
    (onSubmit ⟨some u, Except.ok (some d), pre ++ ovf :: rest, upl, form, init⟩).2 = none := by
  have hrole : (d.role == some "admin") = true := by simp [hd]
  have hlen : (pre ++ ovf :: rest).length > 0 := by simp
  have hloop := uploadLoop_oversize upl (sizeCap form.type) (resourceType form.type)
    pre ovf rest hpre hovf
  have htrace : (onSubmit ⟨some u, Except.ok (some d), pre ++ ovf :: rest, upl, form, init⟩).1 =
      Event.roleFetch :: Event.toast ToastKind.warning "Uploading media..." ::
        (pre.map (fun f => Event.uploadCall f.name) ++
          [Event.toast ToastKind.error
            ("File \"" ++ ovf.name ++ "\" exceeds the size limit")]) := by
    simp only [onSubmit, hrole, if_true, submitBody, hlen, hloop]
  have hdata : (onSubmit ⟨some u, Except.ok (some d), pre ++ ovf :: rest, upl, form, init⟩).2 =
      none := by
    simp only [onSubmit, hrole, if_true, submitBody, hlen, hloop]
  have hmapFilter : ∀ l : List FileRec,
      List.filterMap uploadCallName (l.map (fun f => Event.uploadCall f.name)) =
        l.map FileRec.name := by
    intro l
    induction l with
    | nil => rfl
    | cons x xs ih => simp [List.filterMap_cons, uploadCallName, ih]
  have hmapCount : ∀ l : List FileRec,
      List.countP isWriteEvent (l.map (fun f => Event.uploadCall f.name)) = 0 := by
    intro l
    induction l with
    | nil => rfl
    | cons x xs ih => simp [List.countP_cons, isWriteEvent, ih]
  refine ⟨?_, ?_, ?_, hdata⟩
  · rw [htrace]
    simp only [List.filterMap_cons, uploadCallName, List.filterMap_append, hmapFilter]
    simp [uploadCallName]
  · rw [htrace]
    simp [List.countP_cons, List.countP_append, isWriteEvent, hmapCount]
  · rw [htrace]
    rw [show Event.roleFetch :: Event.toast ToastKind.warning "Uploading media..." ::
        (pre.map (fun f => Event.uploadCall f.name) ++
          [Event.toast ToastKind.error
            ("File \"" ++ ovf.name ++ "\" exceeds the size limit")]) =
        (Event.roleFetch :: Event.toast ToastKind.warning "Uploading media..." ::
          pre.map (fun f => Event.uploadCall f.name)) ++
          [Event.toast ToastKind.error
            ("File \"" ++ ovf.name ++ "\" exceeds the size limit")] by simp]
    exact List.getLast?_concat _

/-- Witness for claim C8: a 10-byte image uploads, then a file one byte
over the 5 MiB graphics cap aborts the submission. -/
theorem claim8_per_file_size_guard_witness :
    (onSubmit ⟨some ⟨"uid1", none⟩, Except.ok (some ⟨some "admin"⟩),
        [⟨"ok.png", 10⟩, ⟨"big.png", 5242881⟩], fun _ => Except.ok "http://cdn/x",
        ⟨"Title", "", ProjectType.graphics, none, ""⟩, none⟩).1.filterMap
      uploadCallName = ["ok.png"] ∧
    (onSubmit ⟨some ⟨"uid1", none⟩, Except.ok (some ⟨some "admin"⟩),
        [⟨"ok.png", 10⟩, ⟨"big.png", 5242881⟩], fun _ => Except.ok "http://cdn/x",
        ⟨"Title", "", ProjectType.graphics, none, ""⟩, none⟩).2 = none := by
  have h := claim8_per_file_size_guard ⟨"uid1", none⟩ ⟨some "admin"⟩
    ⟨"Title", "", ProjectType.graphics, none, ""⟩ none (fun _ => Except.ok "http://cdn/x")
    [⟨"ok.png", 10⟩] ⟨"big.png", 5242881⟩ [] rfl
    (by
      intro f hf
      simp only [List.mem_singleton] at hf
      subst hf
      exact ⟨by decide, "http://cdn/x", rfl⟩)
    (by decide)
  exact ⟨h.1, h.2.2.2⟩

/-- Claim C10: whenever a submission assembles a record (create or edit),
its liveLink is the trimmed form value exactly when the selected type is
frontend and undefined otherwise, independent of any liveLink stored on the
project being edited. -/
theorem claim10_livelink_assembly (a : SubmitArgs) (pd : ProjectData)
    (h : (onSubmit a).2 = some pd) :
    pd.liveLink =
      if a.form.type == ProjectType.frontend then a.form.liveLink.map String.trim
      else none := by
  match hu : a.user with
  | none => rw [onSubmit, hu] at h; simp at h
  | some u =>
      match hf : a.fetchRole with
      | Except.error e => rw [onSubmit, hu, hf] at h; simp at h
      | Except.ok none => rw [onSubmit, hu, hf] at h; simp at h
      | Except.ok (some d) =>
          by_cases hr : (d.role == some "admin") = true
          · rw [onSubmit, hu, hf] at h
            simp only [hr, if_true] at h
            rw [submitBody] at h
            by_cases hsel : a.selectedFiles.length > 0
            · simp only [hsel, if_true] at h
              match hloop : uploadLoop a.uploadFn (sizeCap a.form.type)
                  (resourceType a.form.type) a.selectedFiles with
              | (evs, Except.error msg) => rw [hloop] at h; simp at h
              | (evs, Except.ok uploaded) =>
                  rw [hloop] at h
                  simp only [Option.some_inj] at h
                  subst h
                  rfl
            · simp only [hsel, if_false] at h
              match hinit : a.initialData with
              | none => rw [hinit] at h; simp at h
              | some p =>
                  rw [hinit] at h
                  simp only [Option.some_inj] at h
                  subst h
                  rfl
          · rw [onSubmit, hu, hf] at h
            simp [hr] at h

/-- Submission inputs editing a stored frontend project that carries a
liveLink, re-typed as graphics with no new files, used by the C10
witness. -/
def retypeEditArgs : SubmitArgs :=
  { user := some ⟨"uid1", some "a@b.c"⟩
    fetchRole := Except.ok (some ⟨some "admin"⟩)
    selectedFiles := []
    uploadFn := fun _ => Except.ok "http://cdn/a"
    form := ⟨"Title", "", ProjectType.graphics, some "https://old.example", ""⟩
    initialData := some
      { id := "p9", title := "Site", description := "", type := ProjectType.frontend,
        media := [⟨MediaType.image, "http://m/s.png"⟩], mediaUrl := none,
        liveLink := some "https://stored.example", tags := [], views := 3, likes := 1 } }

/-- Witness for claim C10: the re-typed edit discards the stored liveLink;
the assembled record carries none. -/
theorem claim10_livelink_assembly_witness :
    (assembleProjectData ⟨"uid1", some "a@b.c"⟩
      ⟨"Title", "", ProjectType.graphics, some "https://old.example", ""⟩
      [⟨MediaType.image, "http://m/s.png"⟩] true).liveLink = none := by
  have h := claim10_livelink_assembly retypeEditArgs
    (assembleProjectData ⟨"uid1", some "a@b.c"⟩
      ⟨"Title", "", ProjectType.graphics, some "https://old.example", ""⟩
      [⟨MediaType.image, "http://m/s.png"⟩] true) rfl
  simpa using h

end Portfolio
